import Mathlib

/-!
Verification of Basic-MultiProcessing-Producer-Consumer.py: a producer process
that puts the integers 0, 1, 2, ... into a SyncManager-managed FIFO queue, a
consumer process that gets them and checks consecutiveness, an OS signal
handler, and a supervising main function with a timed wait loop.
-/

namespace ProducerConsumer

/-- The concrete FIFO queue held by the SyncManager broker and reached by the
workers through QueueProxy. The head of the list is the next item to be
dequeued; put appends at the tail. -/
structure SharedQueue where
  items : List Int
deriving DecidableEq

/-- The queue created by QueueManager.Queue() in main (line 168): initially
empty. -/
def emptyQueue : SharedQueue := ⟨[]⟩

/-- QueueProxy.put(item, block=True) (line 56): appends the item at the tail.
The managed queue is unbounded, so a put always succeeds and never blocks on
fullness. -/
def SharedQueue.put (q : SharedQueue) (x : Int) : SharedQueue :=
  ⟨q.items ++ [x]⟩

/-- QueueProxy.get(block=True) (line 103): none models the caller still blocked
on an empty queue (no value is returned until a put occurs); on a non-empty
queue the head item is removed and returned with the remaining queue. -/
def SharedQueue.get (q : SharedQueue) : Option (Int × SharedQueue) :=
  match q.items with
  | [] => none
  | h :: t => some (h, ⟨t⟩)

/-- QueueProxy.qsize() (lines 60 and 107): the current number of items. -/
def SharedQueue.qsize (q : SharedQueue) : Nat :=
  q.items.length

/-- A sequence of put calls issued in order by a single producer. -/
def SharedQueue.putAll (q : SharedQueue) (xs : List Int) : SharedQueue :=
  xs.foldl SharedQueue.put q

/-- n successive blocking gets: succeeds with the list of dequeued items and
the remaining queue exactly when each of the n gets finds an item. -/
def SharedQueue.getN (q : SharedQueue) : Nat → Option (List Int × SharedQueue)
  | 0 => some ([], q)
  | Nat.succ n =>
    match q.get with
    | none => none
    | some (x, q1) =>
      match q1.getN n with
      | none => none
      | some (xs, q2) => some (x :: xs, q2)

theorem putAll_items (xs : List Int) :
    ∀ q : SharedQueue, (q.putAll xs).items = q.items ++ xs := by
  induction xs with
  | nil => intro q; simp [SharedQueue.putAll]
  | cons x xs ih =>
    intro q
    simp only [SharedQueue.putAll, List.foldl_cons] at ih ⊢
    rw [ih (q.put x)]
    simp [SharedQueue.put]

theorem getN_exact (xs : List Int) :
    SharedQueue.getN ⟨xs⟩ xs.length = some (xs, emptyQueue) := by
  induction xs with
  | nil => rfl
  | cons x xs ih =>
    simp [SharedQueue.getN, SharedQueue.get, ih]

theorem getN_past_end (xs : List Int) :
    SharedQueue.getN ⟨xs⟩ (xs.length + 1) = none := by
  induction xs with
  | nil => rfl
  | cons x xs ih =>
    have h1 : SharedQueue.getN ⟨x :: xs⟩ (xs.length + 1 + 1) =
        (match SharedQueue.getN ⟨xs⟩ (xs.length + 1) with
          | none => none
          | some (ys, q2) => some (x :: ys, q2)) := rfl
    simp only [List.length_cons]
    rw [h1, ih]

/-- C1: for every sequence of N values put into the queue in order by a single
producer, N subsequent gets return exactly those values in that order, leaving
the queue empty, and an (N+1)-th get finds nothing: exactly N gets succeed,
nothing is lost or duplicated. -/
theorem queue_order_preservation_no_loss (vs : List Int) :
    (emptyQueue.putAll vs).getN vs.length = some (vs, emptyQueue) ∧
    (emptyQueue.putAll vs).getN (vs.length + 1) = none := by
  have h : emptyQueue.putAll vs = ⟨vs⟩ := by
    have := putAll_items vs emptyQueue
    cases hq : emptyQueue.putAll vs
    simp only [hq] at this
    simp only [emptyQueue] at this
    simp at this
    simp [this]
  rw [h]
  exact ⟨getN_exact vs, getN_past_end vs⟩

/-- C7: a get yields an item exactly when the queue is non-empty: on an empty
queue it returns no value (the caller stays blocked) until a put occurs, and on
a non-empty queue it removes and returns the head item. -/
theorem get_blocks_iff_empty :
    (∀ q : SharedQueue, q.get = none ↔ q.items = []) ∧
    (∀ (x : Int) (t : List Int), SharedQueue.get ⟨x :: t⟩ = some (x, ⟨t⟩)) ∧
    (∀ x : Int, (emptyQueue.put x).get = some (x, emptyQueue)) := by
  refine ⟨fun q => ?_, fun x t => rfl, fun x => rfl⟩
  obtain ⟨items⟩ := q
  cases items <;> simp [SharedQueue.get]

/-- C8: put is total and never blocks on fullness, each put increases the
queue size by exactly one, and repeated puts with no intervening gets grow the
size by exactly the number of puts, hence strictly monotonically. -/
theorem put_never_fails_size_grows :
    (∀ (q : SharedQueue) (x : Int), (q.put x).qsize = q.qsize + 1) ∧
    (∀ (q : SharedQueue) (xs : List Int),
      (q.putAll xs).qsize = q.qsize + xs.length) := by
  constructor
  · intro q x
    simp [SharedQueue.put, SharedQueue.qsize]
  · intro q xs
    simp [SharedQueue.qsize, putAll_items]

/-- The per-iteration state of ProducerProcess.run (lines 51-62): the local
counter Count together with the shared queue it puts into. -/
structure ProducerState where
  Count : Int
  queue : SharedQueue
deriving DecidableEq

/-- One iteration of the producer loop body (lines 56-62): put the current
Count into the queue, then increment Count by 1. -/
def producerStep (s : ProducerState) : ProducerState :=
  { Count := s.Count + 1, queue := s.queue.put s.Count }

/-- ProducerProcess.run after n loop iterations, starting from Count = 0
(line 53) and the initially empty shared queue, with no intervening gets. -/
def producerRun : Nat → ProducerState
  | 0 => ⟨0, emptyQueue⟩
  | Nat.succ n => producerStep (producerRun n)

theorem producerRun_spec (n : Nat) :
    producerRun n = ⟨(n : Int), ⟨(List.range n).map (fun i => (i : Int))⟩⟩ := by
  induction n with
  | zero => rfl
  | succ n ih =>
    show producerStep (producerRun n) = _
    rw [ih]
    simp [producerStep, SharedQueue.put, List.range_succ]

/-- C3: after n producer iterations the counter equals n and the queue holds
exactly 0, 1, ..., n-1 in order, so the n-th value put equals n and the counter
goes up by exactly 1 with each put. -/
theorem producer_emits_naturals (n : Nat) :
    (producerRun n).Count = (n : Int) ∧
    (producerRun n).queue.items = (List.range n).map (fun i => (i : Int)) ∧
    (producerRun (n + 1)).Count = (producerRun n).Count + 1 := by
  rw [producerRun_spec n, producerRun_spec (n + 1)]
  refine ⟨rfl, rfl, ?_⟩
  show ((n + 1 : Nat) : Int) = (n : Int) + 1
  push_cast
  ring

/-- PrevItem is initialized to -1 at the top of ConsumerProcess.run (line 99). -/
def PrevItemInit : Int := -1

/-- One iteration of the consumer loop body after Item has been received
(lines 109-113): if Item - PrevItem is not 1 the process raises SystemExit
(modelled as none); otherwise PrevItem becomes Item and the loop continues. -/
def consumerStep (PrevItem Item : Int) : Option Int :=
  if Item - PrevItem ≠ 1 then none else some Item

/-- Where a consumer run ends up: still looping with the current PrevItem, or
terminated by the consecutive-item check at a given item position and value. -/
inductive ConsumerOutcome where
  | running (PrevItem : Int)
  | terminated (atIndex : Nat) (badItem : Int)
deriving DecidableEq

/-- ConsumerProcess.run fed the given items in order, starting from cursor
PrevItem, with idx counting the items already received. -/
def consumerRunFrom (PrevItem : Int) (idx : Nat) : List Int → ConsumerOutcome
  | [] => .running PrevItem
  | Item :: rest =>
    match consumerStep PrevItem Item with
    | none => .terminated idx Item
    | some p => consumerRunFrom p (idx + 1) rest

/-- ConsumerProcess.run (lines 97-113) fed the given items in order. -/
def consumerRun (items : List Int) : ConsumerOutcome :=
  consumerRunFrom PrevItemInit 0 items

/-- C2: each consumer iteration terminates the process exactly when the
received item minus PrevItem differs from 1, and otherwise continues with
PrevItem set to the item; fed 0, 1, 3 the consumer accepts 0 and 1 and
terminates exactly at the third item, value 3. -/
theorem consumer_gap_detection :
    (∀ PrevItem Item : Int,
      consumerStep PrevItem Item = none ↔ Item - PrevItem ≠ 1) ∧
    (∀ PrevItem Item : Int,
      consumerStep PrevItem Item = some Item ↔ Item - PrevItem = 1) ∧
    consumerRun [0, 1, 3] = .terminated 2 3 := by
  refine ⟨fun PrevItem Item => ?_, fun PrevItem Item => ?_, by decide⟩ <;>
    by_cases h : Item - PrevItem = 1 <;> simp [consumerStep, h]

/-- C5: the consumer cursor starts at the sentinel -1, one less than the first
expected value, and the first received item continues the loop (with PrevItem
set to it) exactly when it equals 0; any other first item terminates the
consumer. -/
theorem consumer_cursor_sentinel :
    PrevItemInit = -1 ∧
    (∀ Item : Int, consumerStep PrevItemInit Item = some Item ↔ Item = 0) ∧
    (∀ Item : Int, consumerStep PrevItemInit Item = none ↔ Item ≠ 0) := by
  refine ⟨rfl, fun Item => ?_, fun Item => ?_⟩ <;>
    by_cases h : Item = 0 <;> simp [consumerStep, PrevItemInit, h]

/-- Exit status of a Python process terminated by an uncaught SystemExit with
the given code argument: the integer code when one is given, and 0 when the
exception carries no code, since Python maps SystemExit with code None to exit
status 0. -/
def systemExitStatus : Option Int → Int
  | none => 0
  | some c => c

/-- Line 111 raises SystemExit with no code argument. -/
def consumerRaiseArg : Option Int := none

/-- The exit status of the consumer process when the consecutive-item check
fails (line 111). -/
def consumerFailStatus : Int := systemExitStatus consumerRaiseArg

/-- The supervisor signal path exits via sys.exit(0) (line 131). -/
def supervisorSignalStatus : Int := systemExitStatus (some 0)

/-- C4 counterexample: the claim that the failing consumer exits with a
non-zero status distinct from the supervisor's 0 is false — the bare
SystemExit of line 111 yields exit status 0, identical to the supervisor's. -/
theorem consumer_exit_status_counterexample :
    ¬ (consumerFailStatus ≠ 0 ∧ consumerFailStatus ≠ supervisorSignalStatus) := by
  decide

/-- C4 amended: when the consecutive-item check fails the consumer terminates
via a SystemExit raised with no code, so its process exit status is 0, equal
to — not distinct from — the supervisor's signal-driven exit status. -/
theorem consumer_exit_status_zero :
    (∀ PrevItem Item : Int,
      consumerStep PrevItem Item = none ↔ Item - PrevItem ≠ 1) ∧
    consumerFailStatus = 0 ∧
    supervisorSignalStatus = 0 ∧
    consumerFailStatus = supervisorSignalStatus := by
  refine ⟨fun PrevItem Item => ?_, by decide, by decide, by decide⟩
  by_cases h : Item - PrevItem = 1 <;> simp [consumerStep, h]

/-- The three OS signals registered in main (lines 141-143): interrupt
(SIGINT, Ctrl-C), the Windows-specific secondary interrupt variant (SIGBREAK),
and abort (SIGABRT). -/
inductive OSSignal where
  | SIGINT
  | SIGBREAK
  | SIGABRT
deriving DecidableEq

/-- The handler functions defined in the program; OSSignalHandler on lines
120-131 is the only one. -/
inductive SignalHandlerId where
  | osSignalHandler
deriving DecidableEq

/-- The signal-to-handler bindings installed by the three signal.signal calls
in main (lines 141-143). -/
def registeredHandler : OSSignal → SignalHandlerId
  | .SIGINT => .osSignalHandler
  | .SIGBREAK => .osSignalHandler
  | .SIGABRT => .osSignalHandler

/-- The observable result of one run of a signal handler: the line it prints
and the status it exits with. -/
structure HandlerRun where
  logged : String
  exitStatus : Int
deriving DecidableEq

/-- OSSignalHandler (lines 120-131): prints the caught signal's symbolic name
as given by the OS strsignal table (passed as a parameter, since its strings
are OS-provided), then in the finally clause calls sys.exit(0). -/
def OSSignalHandler (strsignal : OSSignal → String) (s : OSSignal) : HandlerRun :=
  { logged := "Caught Signal: " ++ strsignal s, exitStatus := 0 }

/-- C6: all three recognized signals are bound to the one handler, and on any
signal that handler logs the signal's symbolic name and exits with status 0. -/
theorem signal_bindings_single_handler :
    (∀ s : OSSignal, registeredHandler s = .osSignalHandler) ∧
    (∀ (strsignal : OSSignal → String) (s : OSSignal),
      OSSignalHandler strsignal s =
        ⟨"Caught Signal: " ++ strsignal s, 0⟩) := by
  exact ⟨fun s => by cases s <;> rfl, fun strsignal s => rfl⟩

/-- Classification of a raised Python exception by the except clauses of main
(lines 192-197): SystemExit, InterruptedError, or any other BaseException
(every Python exception derives from BaseException, so this is exhaustive). -/
inductive PyExc where
  | systemExit
  | interruptedError
  | otherBaseException
deriving DecidableEq

/-- How a call to main ends: a normal return (with the diagnostic line an
except clause printed, if any), or an exception propagated to the caller. -/
inductive MainResult where
  | returnedNormally (diagnostic : Option String)
  | propagated (e : PyExc)
deriving DecidableEq

/-- main (lines 145-197): the try block body either completes (ok) or raises
some exception; each except clause only prints its diagnostic line, after
which main falls off its end and returns. The signal registrations on lines
141-143 precede the try block and raise nothing on the target platform. -/
def mainResult : Except PyExc Unit → MainResult
  | .ok _ => .returnedNormally none
  | .error .systemExit => .returnedNormally (some "SystemExit")
  | .error .interruptedError => .returnedNormally (some "InterruptedError")
  | .error .otherBaseException => .returnedNormally (some "Something Else")

/-- C9: whatever the try block body does — complete, or raise SystemExit,
InterruptedError, or any other BaseException — main catches it, prints at most
a diagnostic line, and returns normally; no exception propagates to its
caller. -/
theorem main_never_propagates :
    (∀ o : Except PyExc Unit, ∃ d : Option String,
      mainResult o = .returnedNormally d) ∧
    (∀ (o : Except PyExc Unit) (e : PyExc), mainResult o ≠ .propagated e) := by
  constructor
  · intro o
    rcases o with f | _
    · cases f <;> exact ⟨_, rfl⟩
    · exact ⟨none, rfl⟩
  · intro o e
    rcases o with f | _
    · cases f <;> simp [mainResult]
    · simp [mainResult]

/-- The guard of the supervisor wait loop (line 187) is the literal True. -/
def waitLoopCond : Bool := true

/-- Control state of the supervisor around the wait loop of lines 187-190:
still iterating, left via an exception raised during an iteration, or fallen
through the loop to the Exiting print on line 190. -/
inductive LoopState where
  | looping (iteration : Nat)
  | raisedException (atIteration : Nat)
  | reachedExitingPrint
deriving DecidableEq

/-- One evaluation of the supervisor wait loop (lines 187-190): the guard is
tested; when true, QueueManager.join(2) runs, which either raises a pending
exception (such as the SystemExit from the signal handler; raiseAt names the
iteration at which one is delivered, none meaning never) or returns after the
2-second timeout; when false, control would fall through to the Exiting print
of line 190. -/
def waitLoopStep (raiseAt : Option Nat) : LoopState → LoopState
  | .looping i =>
    if waitLoopCond then
      if raiseAt = some i then .raisedException i else .looping (i + 1)
    else .reachedExitingPrint
  | s => s

/-- The wait loop state after n evaluations, starting at iteration 0. -/
def waitLoopRun (raiseAt : Option Nat) : Nat → LoopState
  | 0 => .looping 0
  | Nat.succ n => waitLoopStep raiseAt (waitLoopRun raiseAt n)

theorem waitLoopRun_none (n : Nat) : waitLoopRun none n = .looping n := by
  induction n with
  | zero => rfl
  | succ n ih =>
    show waitLoopStep none (waitLoopRun none n) = _
    rw [ih]
    simp [waitLoopStep, waitLoopCond]

theorem waitLoopRun_some (k n : Nat) :
    waitLoopRun (some k) n =
      if n ≤ k then .looping n else .raisedException k := by
  induction n with
  | zero => simp [waitLoopRun, Nat.zero_le]
  | succ n ih =>
    show waitLoopStep (some k) (waitLoopRun (some k) n) = _
    rw [ih]
    by_cases h : n ≤ k
    · rw [if_pos h]
      by_cases hk : k = n
      · subst hk
        have hn : ¬ (k + 1 ≤ k) := by omega
        simp [waitLoopStep, waitLoopCond, hn]
      · have h1 : n + 1 ≤ k := by omega
        have h2 : ¬ ((some k : Option Nat) = some n) := by simp [hk]
        simp [waitLoopStep, waitLoopCond, h2, h1]
    · have h1 : ¬ (n + 1 ≤ k) := by omega
      rw [if_neg h, if_neg h1]
      rfl

/-- C10: the supervisor wait loop never terminates normally — under any
pattern of exception delivery its state never reaches the Exiting print of
line 190; with no exception it loops forever, and with an exception delivered
at iteration k control leaves the loop exactly through that exception. -/
theorem wait_loop_never_exits_normally :
    (∀ (raiseAt : Option Nat) (n : Nat),
      waitLoopRun raiseAt n ≠ .reachedExitingPrint) ∧
    (∀ n : Nat, waitLoopRun none n = .looping n) ∧
    (∀ k n : Nat, waitLoopRun (some k) n =
      if n ≤ k then .looping n else .raisedException k) := by
  refine ⟨fun raiseAt n => ?_, waitLoopRun_none, waitLoopRun_some⟩
  rcases raiseAt with _ | k
  · rw [waitLoopRun_none]
    simp
  · rw [waitLoopRun_some]
    by_cases h : n ≤ k <;> simp [h]

end ProducerConsumer
